import Mathlib

/-!
Shallow embedding of the plugin-lifecycle core of `stripe-cli` (package
`pkg/plugins`, files embedded from `src/unnamed/part_002` (the
`context.Context`-threaded revision, lines 218-498) and
`src/unnamed/part_004`, plus the constants block at part_002 lines 243-246).

Modelling conventions:
* Machine bytes are `Nat` values (each `< 256` when produced by `hexDecode`).
* `runtime.GOOS` / `runtime.GOARCH` are explicit `goos` / `goarch` arguments.
* The ambient process environment (`PLUGINS_PATH`, `XDG_CONFIG_HOME`) and the
  network are explicit arguments; fallible external calls return `Option`.
* `crypto/sha256` is external to the repository: it is an explicit function
  argument `hash : List Nat → List Nat` of the operations that use it.
* An `io.Reader` is its list of not-yet-consumed bytes; `io.Copy` consumes the
  reader to exhaustion and returns the bytes read plus the (empty) remainder.
* The filesystem is an explicit `Fs` value; the `afero` operations used by the
  code (`MkdirAll`, `Create`, `Chmod`, write via `io.Copy`) are modelled as
  total state transformers, and each operation is also recorded as an `Event`
  so that ordering claims (network before/after checksum, refresh-on-missing)
  are statable.
-/

/-- One hex digit, as in Go `encoding/hex.fromHexChar`:
`0`-`9`, `a`-`f`, `A`-`F`. -/
def hexDigitVal (c : Char) : Option Nat :=
  if '0' ≤ c ∧ c ≤ '9' then some (c.toNat - '0'.toNat)
  else if 'a' ≤ c ∧ c ≤ 'f' then some (c.toNat - 'a'.toNat + 10)
  else if 'A' ≤ c ∧ c ≤ 'F' then some (c.toNat - 'A'.toNat + 10)
  else none

/-- Go `encoding/hex.DecodeString` on a list of characters: decodes pairs of
hex digits into bytes, failing on an odd-length input or an invalid digit. -/
def hexDecodeList : List Char → Option (List Nat)
  | [] => some []
  | [_] => none
  | a :: b :: rest =>
    match hexDigitVal a, hexDigitVal b, hexDecodeList rest with
    | some hi, some lo, some tail => some ((16 * hi + lo) :: tail)
    | _, _, _ => none

/-- Go `encoding/hex.DecodeString`. -/
def hexDecode (s : String) : Option (List Nat) :=
  hexDecodeList s.data

/-- Go `path/filepath.Join` restricted to two components, with Join's
skipping of empty components (no claim involves `.`/`..` cleaning). -/
def joinPath (a b : String) : String :=
  if a = "" then b else if b = "" then a else a ++ "/" ++ b

/-- The characters after the last `/` (helper for `baseName`). -/
def lastSegment (cs : List Char) : List Char :=
  cs.foldl (fun acc c => if c = '/' then [] else acc ++ [c]) []

/-- Go `path/filepath.Base` for the slash-separated paths used here. -/
def baseName (s : String) : String :=
  String.mk (lastSegment s.data)

/-- `true` iff `pre` is an initial segment of `s`. -/
def strHasPre (pre s : String) : Bool :=
  List.isPrefixOf pre.data s.data

/-- Release data for a specific build of a plugin
(source: `type Release struct` in part_002). -/
structure Release where
  Arch : String
  OS : String
  Version : String
  Sum : String
deriving DecidableEq, Repr

/-- An approved plugin (source: `type Plugin struct` in part_002). -/
structure Plugin where
  Shortname : String
  Binary : String
  Release : List Release
  MagicCookieValue : String
deriving DecidableEq, Repr

/-- The approved plugin list (source: `type PluginList struct`). -/
structure PluginList where
  Plugin : List Plugin
deriving DecidableEq, Repr

/-- Constant from part_002 lines 243-246: `PluginsPath string = ""`. -/
def PluginsPath : String := ""

/-- Constant from part_002 lines 243-246: `PluginDev bool = false`. -/
def PluginDev : Bool := false

/-- Modelled from the spec: `pkg/config.Config` is not under `src/`.  The spec
only requires a configuration root, relocatable by `XDG_CONFIG_HOME`
(`GetConfigFolder` receives that variable's value); we model the configuration
root as an abstract function of it. -/
structure Config where
  GetConfigFolder : String → String

/-- Errors surfaced by the plugin subsystem, one constructor per distinct
`return err` source in the embedded code. -/
inductive PError
  | apiKeyFailed
  | pluginDataFailed
  | fetchFailed
  | checksumMissing
  | checksumDecode
  | integrity
  | globFailed
  | dispenseFailed
  | commandFailed
  | manifestRead
  | manifestDecode
deriving DecidableEq, Repr

/-- Observable side effects, recorded in program order. -/
inductive Event
  | netPluginData
  | netFetch (url : String)
  | fsMkdir (dir : String)
  | fsCreate (path : String)
  | fsChmod (path : String)
  | fsWrite (path : String)
  | fsRead (path : String)
deriving DecidableEq, Repr

/-- Network events (requests leaving the machine). -/
def Event.isNet : Event → Bool
  | .netPluginData => true
  | .netFetch _ => true
  | _ => false

/-- Update or insert a file in an association list of files. -/
def setFile : List (String × List Nat) → String → List Nat → List (String × List Nat)
  | [], path, bs => [(path, bs)]
  | (q, old) :: rest, path, bs =>
    if q = path then (path, bs) :: rest else (q, old) :: setFile rest path bs

/-- The local filesystem: the set of directories created and the regular
files with their contents. -/
structure Fs where
  dirs : List String
  files : List (String × List Nat)
deriving DecidableEq, Repr

/-- `afero` `MkdirAll` (idempotent directory creation). -/
def Fs.MkdirAll (fs : Fs) (d : String) : Fs :=
  { fs with dirs := if d ∈ fs.dirs then fs.dirs else fs.dirs ++ [d] }

/-- `afero` `Create`: create or truncate a file. -/
def Fs.Create (fs : Fs) (path : String) : Fs :=
  { fs with files := setFile fs.files path [] }

/-- Writing bytes to an open (freshly created) file via `io.Copy`. -/
def Fs.writeFile (fs : Fs) (path : String) (bs : List Nat) : Fs :=
  { fs with files := setFile fs.files path bs }

/-- `os.ReadFile` / contents lookup: `none` when the file is absent. -/
def Fs.fileContents (fs : Fs) (path : String) : Option (List Nat) :=
  fs.files.lookup path

/-- `getPluginsDir` (part_004 lines 18-29): the compile-time constant
`PluginsPath` wins when non-empty, otherwise the directory `plugins` under the
configuration folder derived from `XDG_CONFIG_HOME`. -/
def getPluginsDir (cfg : Config) (xdg : String) : String :=
  if PluginsPath ≠ "" then PluginsPath
  else joinPath (cfg.GetConfigFolder xdg) "plugins"

/-- `Plugin.getPluginInstallPath` (part_002 lines 287-292):
`filepath.Join(pluginsDir, p.Shortname, version)`. -/
def Plugin.getPluginInstallPath (p : Plugin) (cfg : Config) (xdg version : String) : String :=
  joinPath (joinPath (getPluginsDir cfg xdg) p.Shortname) version

/-- The Go loop in `getChecksum` (part_002 lines 299-304): iterate over
`p.Release`, overwriting `expectedSum` with the `Sum` of every release whose
OS, architecture and version all match, so the last match wins. -/
def Plugin.selectedSum (p : Plugin) (goos goarch version : String) : String :=
  p.Release.foldl
    (fun acc r =>
      if r.OS == goos && r.Arch == goarch && r.Version == version then r.Sum else acc)
    ""

/-- `Plugin.getChecksum` (part_002 lines 295-316): look up the expected
checksum hex for (os, arch, version); empty result is a missing-checksum
error, a hex-decode failure is a decode error. -/
def Plugin.getChecksum (p : Plugin) (goos goarch version : String) :
    Except PError (List Nat) :=
  let expectedSum := p.selectedSum goos goarch version
  if expectedSum = "" then .error .checksumMissing
  else
    match hexDecode expectedSum with
    | none => .error .checksumDecode
    | some decoded => .ok decoded

/-- `Plugin.LookUpLatestVersion` (part_002 lines 318-332): iterate over
`p.Release`, overwriting `version` with the `Version` of every release whose
OS and architecture match; the empty string when none match. -/
def Plugin.LookUpLatestVersion (p : Plugin) (goos goarch : String) : String :=
  p.Release.foldl
    (fun acc r => if r.OS == goos && r.Arch == goarch then r.Version else acc)
    ""

/-- Semantic-version ordering on dotted numeric version strings, following the
spec's words for the Version Resolver ("latest semantic version"); this is a
spec-side definition used only to compare the code's behaviour against the
spec's policy, never a translation of the code. -/
def natListLt : List Nat → List Nat → Bool
  | [], [] => false
  | [], _ :: _ => true
  | _ :: _, [] => false
  | a :: as, b :: bs => if a < b then true else if b < a then false else natListLt as bs

/-- Split a character list at `.` separators (helper for `semverLt`). -/
def splitDots : List Char → List (List Char)
  | [] => [[]]
  | c :: rest =>
    if c = '.' then [] :: splitDots rest
    else
      match splitDots rest with
      | [] => [[c]]
      | t :: ts => (c :: t) :: ts

/-- Numeric value of a list of decimal digit characters
(helper for `semverLt`). -/
def digitsToNat (cs : List Char) : Nat :=
  cs.foldl (fun acc c => 10 * acc + (c.toNat - '0'.toNat)) 0

/-- `semverLt a b` iff version `a` precedes version `b` numerically,
component by component. Spec-side definition (see `natListLt`). -/
def semverLt (a b : String) : Bool :=
  natListLt ((splitDots a.data).map digitsToNat) ((splitDots b.data).map digitsToNat)

/-- A last-match-wins fold over a list equals applying the projection to the
last entry satisfying the filter (or the initial value when none does). -/
theorem foldl_lastPick {α β : Type} (f : α → Bool) (g : α → β) :
    ∀ (l : List α) (init : β),
      l.foldl (fun acc x => if f x then g x else acc) init
        = ((l.filter f).getLast?.map g).getD init := by
  intro l
  induction l with
  | nil => intro init; rfl
  | cons a t ih =>
    intro init
    by_cases h : f a
    · rw [List.foldl_cons, if_pos h, ih, List.filter_cons_of_pos h]
      cases ht : t.filter f with
      | nil => rfl
      | cons b bs =>
        rw [List.getLast?_cons_cons]
        cases hbl : (b :: bs).getLast? with
        | none => simp at hbl
        | some x => rfl
    · rw [List.foldl_cons, if_neg h, ih, List.filter_cons_of_neg h]

/-- Decoded hex is half as long (in bytes) as its source string (in
characters). -/
theorem hexDecodeList_length :
    ∀ (cs : List Char) (l : List Nat), hexDecodeList cs = some l →
      2 * l.length = cs.length
  | [], l, h => by
    simp only [hexDecodeList, Option.some.injEq] at h
    subst h; rfl
  | [_], _, h => by simp [hexDecodeList] at h
  | a :: b :: rest, l, h => by
    simp only [hexDecodeList] at h
    cases hva : hexDigitVal a with
    | none => rw [hva] at h; exact absurd h (by simp)
    | some hi =>
      cases hvb : hexDigitVal b with
      | none => rw [hva, hvb] at h; exact absurd h (by simp)
      | some lo =>
        cases hrest : hexDecodeList rest with
        | none => rw [hva, hvb, hrest] at h; exact absurd h (by simp)
        | some tail =>
          rw [hva, hvb, hrest] at h
          simp only [Option.some.injEq] at h
          subst h
          have := hexDecodeList_length rest tail hrest
          simp only [List.length_cons]
          omega

/-- `FetchRemoteResource` (part_004 lines 95-116): perform a GET of `url`
against the ambient network `net` and hand the response body to the caller as
a reader. (The source's premature `defer resp.Body.Close()` is a `net/http`
concern outside the embedded level; the body bytes are modelled as served.) -/
def FetchRemoteResource (net : String → Option (List Nat)) (url : String) :
    Except PError (List Nat) :=
  match net url with
  | none => .error .fetchFailed
  | some body => .ok body

/-- `Plugin.verifyChecksum` (part_002 lines 390-408): look up the expected
digest, hash the reader's remaining bytes (consuming it, as `io.Copy` does),
and compare. Returns the result together with the reader's remainder. -/
def Plugin.verifyChecksum (p : Plugin) (hash : List Nat → List Nat)
    (goos goarch : String) (binary : List Nat) (version : String) :
    Except PError Unit × List Nat :=
  match p.getChecksum goos goarch version with
  | .error e => (.error e, binary)
  | .ok expectedSum =>
    let actualSum := hash binary
    if actualSum = expectedSum then (.ok (), [])
    else (.error .integrity, [])

/-- External collaborators used by `Install`: `config.Profile.GetAPIKey` and
`requests.GetPluginData` are not under `src/` and are modelled by their
spec-level interface (an authenticated plugin-metadata endpoint returning a
base artifact URL); `net` is the ambient HTTP network used by
`FetchRemoteResource`. -/
structure InstallEnv where
  apiKey : Option String
  pluginData : Option String
  net : String → Option (List Nat)

/-- The download URL composed in `Install` (part_002 line 349):
`fmt.Sprintf("%s/%s/%s/%s/%s/%s", base, p.Shortname, version, GOOS, GOARCH,
p.Binary)`. -/
def downloadURL (base : String) (p : Plugin) (goos goarch version : String) : String :=
  base ++ "/" ++ p.Shortname ++ "/" ++ version ++ "/" ++ goos ++ "/" ++ goarch ++ "/" ++ p.Binary

/-- `Plugin.Install` (part_002 lines 335-386), in source order: resolve the
install path, get the API key, request plugin metadata (network), download the
binary (network), verify its checksum (which consumes the reader), then
`MkdirAll` + `Create` + `Chmod` and `io.Copy` the reader's remainder into the
file. Returns the result, the final filesystem, and the event trace. -/
def Plugin.Install (p : Plugin) (hash : List Nat → List Nat)
    (goos goarch : String) (env : InstallEnv) (cfg : Config)
    (xdg version : String) (fs : Fs) :
    Except PError Unit × Fs × List Event :=
  let pluginDir := p.getPluginInstallPath cfg xdg version
  let pluginFilePath := joinPath pluginDir p.Binary
  match env.apiKey with
  | none => (.error .apiKeyFailed, fs, [])
  | some _ =>
    match env.pluginData with
    | none => (.error .pluginDataFailed, fs, [.netPluginData])
    | some base =>
      let url := downloadURL base p goos goarch version
      match FetchRemoteResource env.net url with
      | .error e => (.error e, fs, [.netPluginData, .netFetch url])
      | .ok binary =>
        match p.verifyChecksum hash goos goarch binary version with
        | (.error e, _) => (.error e, fs, [.netPluginData, .netFetch url])
        | (.ok _, rest) =>
          let fs1 := fs.MkdirAll pluginDir
          let fs2 := fs1.Create pluginFilePath
          let fs3 := fs2.writeFile pluginFilePath rest
          (.ok (), fs3,
            [.netPluginData, .netFetch url, .fsMkdir pluginDir,
             .fsCreate pluginFilePath, .fsChmod pluginFilePath,
             .fsWrite pluginFilePath])

/-- Result of `hcplugin` `client.Client()` (spawn the child + handshake +
RPC-client creation): the spawn itself can fail (no child process exists), or
the child is spawned and the handshake/client creation fails, or everything
succeeds. -/
inductive LaunchResult
  | spawnFail
  | handshakeFail
  | launchOk
deriving DecidableEq, Repr

/-- How `Run` finishes: a normal return of `nil`, a normal return of an
error to the caller, or `log.Fatal` (part_002 line 476), which terminates the
whole CLI process at once — pending `defer`s do not run and nothing is
returned to the caller. -/
inductive RunOutcome
  | ok
  | err (e : PError)
  | fatalExit
deriving DecidableEq, Repr

/-- Ambient inputs of one `Run` invocation: the `PLUGINS_PATH` environment
variable, the result of `filepath.Glob` on the install root, the install
collaborators, and the outcomes of the launch / `Dispense` / `RunCommand`
steps performed by the external `hcplugin` machinery and the plugin itself. -/
structure RunEnv where
  pluginsPathEnv : String
  globResult : Option (List String)
  install : InstallEnv
  launch : LaunchResult
  dispenseOk : Bool
  runCommandOk : Bool

/-- What one `Run` invocation observably did. -/
structure RunTrace where
  globbed : Bool
  installCalled : Bool
  installEvents : List Event
  versionUsed : Option String
  binaryPath : Option String
  childSpawned : Bool
  childKilled : Bool
deriving DecidableEq, Repr

/-- `Plugin.Run` (part_002 lines 411-498). Version resolution: if the
`PLUGINS_PATH` environment variable is non-empty the version is pinned to
`"master"` and no glob happens; otherwise glob the install root for
`<shortname>/*.*.*` and either reuse the first hit's basename or install the
latest version. Then the binary path is computed from `getPluginInstallPath`
(which consults the constant `PluginsPath`, not the environment variable), the
checksum is pinned, and the client is launched. `client.Client()` failure hits
`log.Fatal` before `defer client.Kill()` is registered, so the child is not
killed on that path; on the dispense/command/success paths the deferred kill
runs. -/
def Plugin.Run (p : Plugin) (hash : List Nat → List Nat) (goos goarch : String)
    (env : RunEnv) (cfg : Config) (xdg : String) (fs : Fs) :
    RunOutcome × RunTrace × Fs :=
  let phase2 : String → Bool → Bool → List Event → Fs → RunOutcome × RunTrace × Fs :=
    fun version globbed installCalled installEvents fsNow =>
      let pluginDir := p.getPluginInstallPath cfg xdg version
      let pluginBinaryPath := joinPath pluginDir p.Binary
      let base : RunTrace :=
        { globbed := globbed, installCalled := installCalled,
          installEvents := installEvents, versionUsed := some version,
          binaryPath := some pluginBinaryPath,
          childSpawned := false, childKilled := false }
      match p.getChecksum goos goarch version with
      | .error e => (.err e, base, fsNow)
      | .ok _ =>
        match env.launch with
        | .spawnFail => (.fatalExit, base, fsNow)
        | .handshakeFail => (.fatalExit, { base with childSpawned := true }, fsNow)
        | .launchOk =>
          if env.dispenseOk = false then
            (.err .dispenseFailed,
             { base with childSpawned := true, childKilled := true }, fsNow)
          else if env.runCommandOk = false then
            (.err .commandFailed,
             { base with childSpawned := true, childKilled := true }, fsNow)
          else
            (.ok, { base with childSpawned := true, childKilled := true }, fsNow)
  if env.pluginsPathEnv ≠ "" then
    phase2 "master" false false [] fs
  else
    match env.globResult with
    | none =>
      (.err .globFailed,
       { globbed := true, installCalled := false, installEvents := [],
         versionUsed := none, binaryPath := none,
         childSpawned := false, childKilled := false }, fs)
    | some [] =>
      let version := p.LookUpLatestVersion goos goarch
      match p.Install hash goos goarch env.install cfg xdg version fs with
      | (.error e, fs2, ev) =>
        (.err e,
         { globbed := true, installCalled := true, installEvents := ev,
           versionUsed := some version, binaryPath := none,
           childSpawned := false, childKilled := false }, fs2)
      | (.ok _, fs2, ev) => phase2 version true true ev fs2
    | some (x :: _) => phase2 (baseName x) true false [] fs

/-- `GetPluginList` (part_004 lines 32-48): read
`<config-root>/plugins.toml` and TOML-decode it (`toml.Decode` is external and
modelled as the `parse` argument); a read failure or a decode failure is
returned directly — no refresh is attempted. -/
def GetPluginList (parse : List Nat → Option PluginList) (cfg : Config)
    (xdg : String) (fs : Fs) : Except PError PluginList × List Event :=
  let pluginManifestPath := joinPath (cfg.GetConfigFolder xdg) "plugins.toml"
  match fs.fileContents pluginManifestPath with
  | none => (.error .manifestRead, [.fsRead pluginManifestPath])
  | some bytes =>
    match parse bytes with
    | none => (.error .manifestDecode, [.fsRead pluginManifestPath])
    | some pl => (.ok pl, [.fsRead pluginManifestPath])

/-- `RefreshPluginManifest` (part_004 lines 68-92): fetch the manifest body
(from the placeholder URL `""`) and overwrite `<config-root>/plugins.toml`. -/
def RefreshPluginManifest (net : String → Option (List Nat)) (cfg : Config)
    (xdg : String) (fs : Fs) : Except PError Unit × Fs × List Event :=
  match FetchRemoteResource net "" with
  | .error e => (.error e, fs, [.netFetch ""])
  | .ok body =>
    let pluginManifestPath := joinPath (cfg.GetConfigFolder xdg) "plugins.toml"
    let fs1 := fs.Create pluginManifestPath
    let fs2 := fs1.writeFile pluginManifestPath body
    (.ok (), fs2,
     [.netFetch "", .fsCreate pluginManifestPath, .fsWrite pluginManifestPath])

/-! Concrete fixtures used by closed evaluations and witnesses. -/

/-- A stand-in hash function (SHA-256 is external to the repository and the
operations are parametric in the hash): constantly 32 zero bytes. -/
def zHash : List Nat → List Nat := fun _ => List.replicate 32 0

/-- A second stand-in hash function: constantly 32 one bytes. -/
def oneHash : List Nat → List Nat := fun _ => List.replicate 32 1

/-- Sixty-four `0` characters: hex of the 32-zero-byte digest `zHash b`. -/
def sum64 : String := String.mk (List.replicate 64 '0')

/-- A configuration whose folder is `/cfgroot` regardless of
`XDG_CONFIG_HOME`. -/
def cfg0 : Config := ⟨fun _ => "/cfgroot"⟩

/-- The empty filesystem. -/
def fs0 : Fs := ⟨[], []⟩

/-- A plugin with one linux/amd64 release `1.0.0` whose stored checksum is
`sum64`. -/
def rtPlugin : Plugin :=
  ⟨"foo", "foo-bin", [⟨"amd64", "linux", "1.0.0", sum64⟩], "cookie"⟩

/-- An install environment where every external call succeeds and every
download serves the bytes `[1, 2, 3]`. -/
def rtEnv : InstallEnv :=
  ⟨some "sk-key", some "https://base", fun _ => some [1, 2, 3]⟩

/-- C1. The round-trip claim fails on the code: with a matching checksum
(`sum64 = hex (zHash [1,2,3])`) `Install` succeeds, but the file persisted at
`<installRoot>/foo/1.0.0/foo-bin` holds `[]`, not the downloaded bytes
`[1,2,3]` — `verifyChecksum`'s `io.Copy` into the hash consumes the download
reader, and `Install` then copies the exhausted reader into the file. -/
theorem claim_C1_eval :
    (rtPlugin.Install zHash "linux" "amd64" rtEnv cfg0 "" "1.0.0" fs0).1 = Except.ok ()
    ∧ Fs.fileContents (rtPlugin.Install zHash "linux" "amd64" rtEnv cfg0 "" "1.0.0" fs0).2.1
        "/cfgroot/plugins/foo/1.0.0/foo-bin" = some []
    ∧ ¬ (([] : List Nat) = [1, 2, 3]) :=
  ⟨rfl, rfl, by decide⟩

/-- C2. Verify-before-persist: when the downloaded bytes hash to something
other than the decoded expected checksum, `Install` returns the integrity
error and the filesystem is unchanged — in particular the target file is
still absent and the version directory is still absent when they were absent
before. -/
theorem claim_C2 (hash : List Nat → List Nat) (goos goarch : String) (p : Plugin)
    (env : InstallEnv) (cfg : Config) (xdg version : String) (fs : Fs)
    (k base : String) (body expected : List Nat)
    (hk : env.apiKey = some k) (hb : env.pluginData = some base)
    (hf : env.net (downloadURL base p goos goarch version) = some body)
    (hc : p.getChecksum goos goarch version = .ok expected)
    (hne : hash body ≠ expected) :
    (p.Install hash goos goarch env cfg xdg version fs).1 = .error .integrity
    ∧ (p.Install hash goos goarch env cfg xdg version fs).2.1 = fs
    ∧ (Fs.fileContents fs (joinPath (p.getPluginInstallPath cfg xdg version) p.Binary) = none →
        Fs.fileContents (p.Install hash goos goarch env cfg xdg version fs).2.1
          (joinPath (p.getPluginInstallPath cfg xdg version) p.Binary) = none)
    ∧ ((p.getPluginInstallPath cfg xdg version) ∉ fs.dirs →
        (p.getPluginInstallPath cfg xdg version) ∉
          ((p.Install hash goos goarch env cfg xdg version fs).2.1).dirs) := by
  have hmain : p.Install hash goos goarch env cfg xdg version fs
      = (.error .integrity, fs,
         [.netPluginData, .netFetch (downloadURL base p goos goarch version)]) := by
    simp only [Plugin.Install, hk, hb, FetchRemoteResource, hf, Plugin.verifyChecksum, hc,
      if_neg hne]
  rw [hmain]
  exact ⟨rfl, rfl, fun h => h, fun h => h⟩

/-- C2 witness: concrete mismatching download (`oneHash [1,2,3]` is 32 one
bytes, the stored checksum decodes to 32 zero bytes). -/
theorem claim_C2_witness :
    (rtPlugin.Install oneHash "linux" "amd64" rtEnv cfg0 "" "1.0.0" fs0).1 = .error .integrity
    ∧ (rtPlugin.Install oneHash "linux" "amd64" rtEnv cfg0 "" "1.0.0" fs0).2.1 = fs0 := by
  have h := claim_C2 oneHash "linux" "amd64" rtPlugin rtEnv cfg0 "" "1.0.0" fs0
    "sk-key" "https://base" [1, 2, 3] (List.replicate 32 0) rfl rfl rfl rfl (by decide)
  exact ⟨h.1, h.2.1⟩

/-- C3 counterexample: `Install(rtPlugin, "")` does fail with the
missing-checksum error, but only after two network requests (the plugin-data
request and the download) — the trace's network-event count is 2, so the
failure does not precede network access as the claim states. -/
theorem claim_C3_counterexample :
    (rtPlugin.Install zHash "linux" "amd64" rtEnv cfg0 "" "" fs0).1
      = Except.error PError.checksumMissing
    ∧ ((rtPlugin.Install zHash "linux" "amd64" rtEnv cfg0 "" "" fs0).2.2.filter
        Event.isNet).length = 2 :=
  ⟨rfl, rfl⟩

/-- C3 (amended): whenever the expected checksum for the requested version is
absent (or present but undecodable), `Install` fails with the corresponding
checksum error, but only after performing the plugin-data request and the
binary download — the checksum lookup lives inside `verifyChecksum`, which
runs after `FetchRemoteResource`. The trace of the failing run is exactly the
two network events. -/
theorem claim_C3_amended (hash : List Nat → List Nat) (goos goarch : String)
    (p : Plugin) (env : InstallEnv) (cfg : Config) (xdg version : String) (fs : Fs)
    (k base : String) (body : List Nat)
    (hk : env.apiKey = some k) (hb : env.pluginData = some base)
    (hf : env.net (downloadURL base p goos goarch version) = some body) :
    (p.selectedSum goos goarch version = "" →
      p.Install hash goos goarch env cfg xdg version fs
        = (.error .checksumMissing, fs,
           [.netPluginData, .netFetch (downloadURL base p goos goarch version)]))
    ∧ (p.selectedSum goos goarch version ≠ "" →
       hexDecode (p.selectedSum goos goarch version) = none →
       p.Install hash goos goarch env cfg xdg version fs
         = (.error .checksumDecode, fs,
            [.netPluginData, .netFetch (downloadURL base p goos goarch version)])) := by
  constructor
  · intro hs
    have hg : p.getChecksum goos goarch version = .error .checksumMissing := by
      simp [Plugin.getChecksum, hs]
    simp only [Plugin.Install, hk, hb, FetchRemoteResource, hf, Plugin.verifyChecksum, hg]
  · intro hs hd
    have hg : p.getChecksum goos goarch version = .error .checksumDecode := by
      simp only [Plugin.getChecksum, if_neg hs, hd]
    simp only [Plugin.Install, hk, hb, FetchRemoteResource, hf, Plugin.verifyChecksum, hg]

/-- C3 witness: the empty version has no matching release in `rtPlugin`, so
the amended theorem applies with a concrete successful network environment. -/
theorem claim_C3_amended_witness :
    rtPlugin.Install zHash "linux" "amd64" rtEnv cfg0 "" "" fs0
      = (.error .checksumMissing, fs0,
         [.netPluginData, .netFetch (downloadURL "https://base" rtPlugin "linux" "amd64" "")]) :=
  (claim_C3_amended zHash "linux" "amd64" rtPlugin rtEnv cfg0 "" "" fs0
    "sk-key" "https://base" [1, 2, 3] rfl rfl rfl).1 rfl

/-- A plugin whose matching releases are listed in descending version order,
so last-match-wins does not pick the semantically latest version. -/
def unsortedPlugin : Plugin :=
  ⟨"foo", "foo-bin",
   [⟨"amd64", "linux", "2.0.0", "aa"⟩, ⟨"amd64", "linux", "1.0.0", "bb"⟩], "cookie"⟩

/-- C6 counterexample: `LookUpLatestVersion` returns `1.0.0` although the
matching release `2.0.0` is semantically later — the code takes the last
matching entry in list order, not the semantic maximum. -/
theorem claim_C6_counterexample :
    unsortedPlugin.LookUpLatestVersion "linux" "amd64" = "1.0.0"
    ∧ semverLt "1.0.0" "2.0.0" = true
    ∧ "2.0.0" ∈ (unsortedPlugin.Release.filter
        (fun r => r.OS == "linux" && r.Arch == "amd64")).map Release.Version :=
  ⟨rfl, by decide, by decide⟩

/-- C6 (amended): `LookUpLatestVersion` returns the version of the last
release in list order whose OS and architecture match (the semantically
latest only if matching entries happen to be listed ascending), and the empty
string — not an error — when no release matches. -/
theorem claim_C6_amended (p : Plugin) (goos goarch : String) :
    p.LookUpLatestVersion goos goarch
      = (((p.Release.filter (fun r => r.OS == goos && r.Arch == goarch)).getLast?).map
          Release.Version).getD "" := by
  exact foldl_lastPick (fun r : Release => r.OS == goos && r.Arch == goarch)
    Release.Version p.Release ""

/-- A plugin whose sole release stores a 2-character checksum hex. -/
def badSumPlugin : Plugin :=
  ⟨"foo", "foo-bin", [⟨"amd64", "linux", "1.0.0", "ab"⟩], "cookie"⟩

/-- C8 counterexample: `getChecksum` accepts the 2-character hex `"ab"`,
returning the single byte `171` — the decoded digest is not 32 bytes, so
acceptance by `getChecksum` does not imply a 32-byte digest. -/
theorem claim_C8_counterexample :
    badSumPlugin.getChecksum "linux" "amd64" "1.0.0" = Except.ok [171]
    ∧ ¬ (([171] : List Nat).length = 32) :=
  ⟨rfl, by decide⟩

/-- C8 (amended): `getChecksum` enforces no digest length — whenever it
accepts a checksum, the decoded digest has exactly half as many bytes as the
stored hex string has characters (32 bytes exactly when the hex is 64
characters); a stored hex string that fails to decode is rejected with the
decode error. (In `Install` this rejection happens only at verification time,
after the network requests — see C3.) -/
theorem claim_C8_amended (p : Plugin) (goos goarch version : String) :
    (∀ l, p.getChecksum goos goarch version = .ok l →
        2 * l.length = (p.selectedSum goos goarch version).length)
    ∧ (p.selectedSum goos goarch version ≠ "" →
       hexDecode (p.selectedSum goos goarch version) = none →
       p.getChecksum goos goarch version = .error .checksumDecode) := by
  constructor
  · intro l h
    simp only [Plugin.getChecksum] at h
    by_cases hs : p.selectedSum goos goarch version = ""
    · rw [if_pos hs] at h
      exact Except.noConfusion h
    · rw [if_neg hs] at h
      cases hd : hexDecode (p.selectedSum goos goarch version) with
      | none => rw [hd] at h; exact Except.noConfusion h
      | some d =>
        rw [hd] at h
        simp only [Except.ok.injEq] at h
        subst h
        have hlen := hexDecodeList_length _ _ hd
        exact hlen
  · intro hs hd
    simp only [Plugin.getChecksum, if_neg hs, hd]

/-- C8 witness: `rtPlugin`'s 64-character checksum decodes to exactly 32
bytes. -/
theorem claim_C8_amended_witness :
    2 * (List.replicate 32 (0 : Nat)).length
      = (rtPlugin.selectedSum "linux" "amd64" "1.0.0").length :=
  (claim_C8_amended rtPlugin "linux" "amd64" "1.0.0").1 (List.replicate 32 0) rfl

/-- A plugin with two releases for the same (os, arch, version) triple,
violating the manifest uniqueness invariant. -/
def dupPlugin : Plugin :=
  ⟨"foo", "foo-bin",
   [⟨"amd64", "linux", "1.0.0", "aa"⟩, ⟨"amd64", "linux", "1.0.0", "bb"⟩], "cookie"⟩

/-- C10. Under duplicate releases, `getChecksum` returns the decoded sum of
the last matching entry in list order (earlier matches are silently
overwritten, duplicates are never detected), and `LookUpLatestVersion`
returns the version of the last OS/arch-matching entry (the empty string when
none match). -/
theorem claim_C10 (p : Plugin) (goos goarch version : String) (r : Release) (l : List Nat)
    (hlast : (p.Release.filter
        (fun q => q.OS == goos && q.Arch == goarch && q.Version == version)).getLast?
      = some r)
    (hsum : r.Sum ≠ "") (hdec : hexDecode r.Sum = some l) :
    p.getChecksum goos goarch version = .ok l
    ∧ p.LookUpLatestVersion goos goarch
        = (((p.Release.filter (fun q => q.OS == goos && q.Arch == goarch)).getLast?).map
            Release.Version).getD "" := by
  have hsel : p.selectedSum goos goarch version = r.Sum := by
    have h := foldl_lastPick
      (fun q => q.OS == goos && q.Arch == goarch && q.Version == version)
      Release.Sum p.Release ""
    simp only [Plugin.selectedSum, h, hlast, Option.map_some', Option.getD_some]
  constructor
  · simp only [Plugin.getChecksum, hsel, if_neg hsum, hdec]
  · exact foldl_lastPick (fun q : Release => q.OS == goos && q.Arch == goarch)
      Release.Version p.Release ""

/-- C10 witness: with two releases for (linux, amd64, 1.0.0), the checksum of
the second (last) one, `"bb"`, is the one returned, decoded to `[187]`. -/
theorem claim_C10_witness :
    dupPlugin.getChecksum "linux" "amd64" "1.0.0" = Except.ok [187] :=
  (claim_C10 dupPlugin "linux" "amd64" "1.0.0"
    ⟨"amd64", "linux", "1.0.0", "bb"⟩ [187] (by decide) (by decide) (by decide)).1

/-- A run environment with no development override, one installed version on
disk, and a failing handshake / RPC-client creation. -/
def envHandshakeFail : RunEnv :=
  ⟨"", some ["/cfgroot/plugins/foo/1.0.0"], rtEnv, .handshakeFail, true, true⟩

/-- C4. The claim fails on the code: when `client.Client()` (handshake /
RPC-client creation) fails, `Run` reaches `log.Fatal(err)` (part_002 line
476), which unconditionally terminates the whole CLI process (`fatalExit`)
instead of propagating the error to the caller as a normal return value. -/
theorem claim_C4_eval :
    (rtPlugin.Run zHash "linux" "amd64" envHandshakeFail cfg0 "" fs0).1
      = RunOutcome.fatalExit :=
  rfl

/-- C5. The claim fails on the code: on the handshake/client-creation failure
exit path, the spawned child process is never terminated — `log.Fatal` fires
before `defer client.Kill()` is registered (part_002 lines 473-479), and
`log.Fatal` skips pending defers anyway, so `Run` ends with the child spawned
but not killed. -/
theorem claim_C5_eval :
    (rtPlugin.Run zHash "linux" "amd64" envHandshakeFail cfg0 "" fs0).2.1.childSpawned = true
    ∧ (rtPlugin.Run zHash "linux" "amd64" envHandshakeFail cfg0 "" fs0).2.1.childKilled = false
    ∧ (rtPlugin.Run zHash "linux" "amd64" envHandshakeFail cfg0 "" fs0).1
        = RunOutcome.fatalExit :=
  ⟨rfl, rfl, rfl⟩

/-- A plugin with a linux/amd64 `master` release so that the development-mode
flow of `Run` proceeds past the checksum lookup. -/
def devPlugin : Plugin :=
  ⟨"foo", "foo-bin", [⟨"amd64", "linux", "master", sum64⟩], "cookie"⟩

/-- A run environment with the development override `PLUGINS_PATH` set to
`/dev-override` and a fully successful launch. -/
def envDevOverride : RunEnv :=
  ⟨"/dev-override", some [], rtEnv, .launchOk, true, true⟩

/-- C9. Partially fails on the code: with `PLUGINS_PATH` set, `Run` indeed
performs no glob and pins the version to `master`, but the binary path is
resolved under the configuration-derived install root (`/cfgroot/plugins`),
not under the override path — `Run` reads the environment variable while
`getPluginsDir` consults the compile-time constant `PluginsPath`, which is
`""` (part_002 lines 243-246, part_004 lines 18-29). -/
theorem claim_C9_eval :
    (devPlugin.Run zHash "linux" "amd64" envDevOverride cfg0 "" fs0).2.1.globbed = false
    ∧ (devPlugin.Run zHash "linux" "amd64" envDevOverride cfg0 "" fs0).2.1.versionUsed
        = some "master"
    ∧ (devPlugin.Run zHash "linux" "amd64" envDevOverride cfg0 "" fs0).2.1.binaryPath
        = some "/cfgroot/plugins/foo/master/foo-bin"
    ∧ strHasPre "/dev-override" "/cfgroot/plugins/foo/master/foo-bin" = false :=
  ⟨rfl, rfl, rfl, rfl⟩

/-- A TOML decoder stand-in that rejects everything (never reached when the
manifest file is absent). -/
def noParse : List Nat → Option PluginList := fun _ => none

/-- C7 counterexample: with the manifest cache file absent, `GetPluginList`
returns the read error directly after a single read attempt; its trace shows
no network activity and no second read, so no refresh was auto-triggered. -/
theorem claim_C7_counterexample :
    (GetPluginList noParse cfg0 "" fs0).1 = Except.error PError.manifestRead
    ∧ (GetPluginList noParse cfg0 "" fs0).2 = [Event.fsRead "/cfgroot/plugins.toml"]
    ∧ (GetPluginList noParse cfg0 "" fs0).2.filter Event.isNet = [] :=
  ⟨rfl, rfl, rfl⟩

/-- C7 (amended): when the local manifest cache file is absent,
`GetPluginList` surfaces the read error to the caller immediately — it
performs exactly one read attempt and triggers no manifest refresh
(`RefreshPluginManifest` is never invoked by `GetPluginList`). -/
theorem claim_C7_amended (parse : List Nat → Option PluginList) (cfg : Config)
    (xdg : String) (fs : Fs)
    (habs : fs.fileContents (joinPath (cfg.GetConfigFolder xdg) "plugins.toml") = none) :
    GetPluginList parse cfg xdg fs
      = (.error .manifestRead,
         [.fsRead (joinPath (cfg.GetConfigFolder xdg) "plugins.toml")]) := by
  simp only [GetPluginList, habs]

/-- C7 witness: the empty filesystem has no manifest file. -/
theorem claim_C7_amended_witness :
    GetPluginList noParse cfg0 "" fs0
      = (.error .manifestRead,
         [.fsRead (joinPath (cfg0.GetConfigFolder "") "plugins.toml")]) :=
  claim_C7_amended noParse cfg0 "" fs0 rfl
